import Mathlib

/-!
Verification of the kensington-trackball-scroll utility (src/main.go).

The program reads relative-motion events from a grabbed physical trackball
device and re-emits them as scroll-wheel events through a virtual uinput
device.  This file gives a shallow embedding of the program's pure logic:

* the translation engine (`handleEvents` / `abs` in main.go), with Go's
  32-bit wrapping integer arithmetic made explicit (`wrap32`, `abs32`);
* the per-command emission path (`sendScrollEvent`), with the outcome of
  each `syscall.Write` supplied as an oracle;
* the event loop (`processEvents`), with the stop indicator and the read
  results per iteration supplied as a schedule, and the outcome of each
  emission supplied as an oracle (the Go code discards that outcome);
* resource cleanup (`close`) and the top-level control flow of `main`,
  including the Go semantics of `log.Fatalf` (os.Exit skips deferred calls);
* device classification (`isTrackballDevice`) and selection (`selectDevice`).

Go's `float64` sensitivity is modelled as an exact rational `sNum / sDen`
with `sDen > 0` (every `float64` value is such a rational); the conversion
`int32(float64(v) * sensitivity)` truncates toward zero, modelled by
truncating integer division (`scaledValue`; the lemma `scaledValue_eq_rtz`
identifies it with round-toward-zero of the rational product).  The int32
range restriction of the conversion is not modelled: the claims under study
are about in-range results.
-/

namespace TrackballScroll

/-! ### Constants from src/main.go and the evdev bindings -/

/-- Constant `EV_REL = 0x02` (src/main.go constant block; same value as `evdev.EV_REL`). -/
def EV_REL : Nat := 0x02

/-- Constant `EV_SYN = 0x00` (src/main.go constant block). -/
def EV_SYN : Nat := 0x00

/-- Constant `REL_WHEEL = 0x08` (src/main.go constant block). -/
def REL_WHEEL : Nat := 0x08

/-- Constant `REL_HWHEEL = 0x06` (src/main.go constant block). -/
def REL_HWHEEL : Nat := 0x06

/-- Constant `SYN_REPORT = 0x00` (src/main.go constant block). -/
def SYN_REPORT : Nat := 0x00

/-- Constant `evdev.REL_X = 0x00`: horizontal relative-motion axis code
(Linux input code, from the golang-evdev bindings used by `handleEvents`). -/
def REL_X : Nat := 0x00

/-- Constant `evdev.REL_Y = 0x01`: vertical relative-motion axis code
(Linux input code, from the golang-evdev bindings used by `handleEvents`). -/
def REL_Y : Nat := 0x01

/-- Constant `MAX_EVENT_DEVICES = 32` (src/main.go constant block). -/
def MAX_EVENT_DEVICES : Nat := 32

/-! ### 32-bit wrapping arithmetic (Go `int32`) -/

/-- Reduce an integer into the `int32` range `[-2^31, 2^31)` by two's-complement
wrapping, as Go's defined signed-overflow semantics do. -/
def wrap32 (x : Int) : Int := (x + 2 ^ 31) % 2 ^ 32 - 2 ^ 31

/-- Function `abs` from src/main.go:

```go
func abs(x int32) int32 {
    if x < 0 { return -x }
    return x
}
```

The negation `-x` is Go `int32` negation, which wraps: `abs(math.MinInt32)`
is `math.MinInt32` itself. -/
def abs32 (x : Int) : Int := if x < 0 then wrap32 (-x) else x

/-- The scaled magnitude `int32(float64(value) * sensitivity)` for
sensitivity `sNum / sDen`: the exact rational product `value * sNum / sDen`
truncated toward zero, which is truncating (T-)integer division.
`scaledValue_eq_rtz` below proves this equals round-toward-zero
(floor for non-negative, ceiling for negative) of the rational product. -/
def scaledValue (value sNum sDen : Int) : Int := (value * sNum).tdiv sDen

/-! ### Translation engine -/

/-- One raw motion sample as delivered by `device.Read()`:
`evdev.InputEvent`'s `Type`, `Code` (uint16) and `Value` (int32). -/
structure InputSample where
  typ : Nat
  code : Nat
  value : Int
deriving DecidableEq, Repr

/-- One scroll command: `isHorizontal` selects the axis
(`REL_HWHEEL` vs `REL_WHEEL`), `value` is the signed scaled magnitude. -/
structure ScrollCmd where
  isHorizontal : Bool
  value : Int
deriving DecidableEq, Repr

/-- The per-sample core of `handleEvents` (src/main.go lines 268–292): decides
whether one raw sample produces a scroll command, and with which magnitude.

```go
if event.Type != evdev.EV_REL { continue }
switch event.Code {
case evdev.REL_X:
    isHorizontal = true
    scrollValue = int32(float64(event.Value) * ts.sensitivity)
case evdev.REL_Y:
    isHorizontal = false
    scrollValue = -int32(float64(event.Value) * ts.sensitivity)
default:
    continue
}
if abs(event.Value) > ts.deadZone && scrollValue != 0 {
    ts.sendScrollEvent(isHorizontal, scrollValue)
}
```

The float64 product is modelled as the exact rational product, the `int32`
conversion as truncation toward zero (`scaledValue`). -/
def handleEvent (typ code : Nat) (value : Int) (sNum sDen deadZone : Int) :
    Option ScrollCmd :=
  if typ ≠ EV_REL then none
  else if code = REL_X then
    let scrollValue := scaledValue value sNum sDen
    if abs32 value > deadZone ∧ scrollValue ≠ 0 then some ⟨true, scrollValue⟩ else none
  else if code = REL_Y then
    let scrollValue := -scaledValue value sNum sDen
    if abs32 value > deadZone ∧ scrollValue ≠ 0 then some ⟨false, scrollValue⟩ else none
  else none

/-- The scroll commands a whole batch produces, in sample order
(`handleEvents` iterates the batch and evaluates each sample independently). -/
def batchCmds (sNum sDen deadZone : Int) (evs : List InputSample) : List ScrollCmd :=
  evs.filterMap (fun ev => handleEvent ev.typ ev.code ev.value sNum sDen deadZone)

/-! ### Emission path (`sendScrollEvent`, src/main.go lines 208–238) -/

/-- One fixed-layout event record written to the virtual device
(`InputEvent`: timestamp seconds/microseconds, type, code, value). -/
structure EventRec where
  sec : Int
  usec : Int
  typ : Nat
  code : Nat
  value : Int
deriving DecidableEq, Repr

/-- Function `sendScrollEvent` builds two records — a relative-motion record with the
axis code and the signed magnitude, then a `SYN_REPORT` record with value 0 —
and writes them in order, returning on the first write failure:

```go
code := uint16(REL_WHEEL)
if isHorizontal { code = uint16(REL_HWHEEL) }
events := []InputEvent{ {Time, EV_REL, code, value}, {Time, EV_SYN, SYN_REPORT, 0} }
for _, event := range events {
    if _, err := syscall.Write(ts.virtualFd, eventBytes); err != nil {
        return fmt.Errorf("failed to write event: %w", err)
    }
}
return nil
```

The outcomes of the two `syscall.Write` calls are supplied as oracles
`w1 w2` (`none` = success, `some e` = failure with message `e`); `sec` is the
wall-clock second (`now.Unix()`, `Usec` is zeroed).  The result is the list of
records successfully written, in order, together with the returned error. -/
def sendScrollEvent (w1 w2 : Option String) (sec : Int) (isHorizontal : Bool)
    (value : Int) : List EventRec × Option String :=
  let code := if isHorizontal then REL_HWHEEL else REL_WHEEL
  let e1 : EventRec := ⟨sec, 0, EV_REL, code, value⟩
  let e2 : EventRec := ⟨sec, 0, EV_SYN, SYN_REPORT, 0⟩
  match w1 with
  | some err => ([], some ("failed to write event: " ++ err))
  | none =>
    match w2 with
    | some err => ([e1], some ("failed to write event: " ++ err))
    | none => ([e1, e2], none)

/-! ### Event loop (`processEvents` / `handleEvents`, src/main.go lines 251–292)

`processEvents` loops: a non-blocking check of the stop channel (return `nil`
if it is closed), then a blocking `device.Read()` (return the wrapped error on
failure), then `handleEvents` over the batch.  `handleEvents` calls
`ts.sendScrollEvent(...)` for each produced command and DISCARDS its result.

The environment is supplied as a schedule: one `Iter` per loop iteration
(whether the stop indicator is set at the top-of-loop check, and what the
read returns), plus a list of emission outcomes consumed one per
`sendScrollEvent` call (`none` = success; an exhausted list means success). -/

/-- The environment of one loop iteration: the stop indicator at the
top-of-loop check, and the result of `device.Read()`. -/
structure Iter where
  stop : Bool
  read : Except String (List InputSample)
deriving Repr

/-- Outcome of the event loop on a finite schedule. -/
inductive LoopOutcome where
  /-- The stop check found the indicator set; `processEvents` returned `nil`. -/
  | stopped : LoopOutcome
  /-- `device.Read()` failed; `processEvents` returned the wrapped error. -/
  | readErr : String → LoopOutcome
  /-- The schedule was exhausted with the loop still running. -/
  | running : LoopOutcome
deriving DecidableEq, Repr

/-- Pop the next emission outcome (an exhausted oracle list means success). -/
def takeOutcome : List (Option String) → Option String × List (Option String)
  | [] => (none, [])
  | r :: rest => (r, rest)

/-- Function `handleEvents` (src/main.go lines 268–292) over one batch: each sample is
translated by `handleEvent`; each produced command is emitted and the
emission's outcome — drawn from the oracle — is recorded but, as in the Go
code, never affects control flow.  Returns the emission attempts
(command, outcome) in order, and the remaining oracle. -/
def handleEvents (sNum sDen deadZone : Int) :
    List InputSample → List (Option String) →
    List (ScrollCmd × Option String) × List (Option String)
  | [], emits => ([], emits)
  | ev :: rest, emits =>
    match handleEvent ev.typ ev.code ev.value sNum sDen deadZone with
    | none => handleEvents sNum sDen deadZone rest emits
    | some cmd =>
      let (r, emits') := takeOutcome emits
      let (more, emits'') := handleEvents sNum sDen deadZone rest emits'
      ((cmd, r) :: more, emits'')

/-- Function `processEvents` (src/main.go lines 251–266) on a finite schedule:

```go
for {
    select {
    case <-stopChan: return nil
    default:
    }
    events, err := ts.device.Read()
    if err != nil { return fmt.Errorf("error reading events: %w", err) }
    ts.handleEvents(events)
}
```

Returns the loop outcome and every emission attempt (command, outcome) in
order. -/
def processEvents (sNum sDen deadZone : Int)
    (emits : List (Option String)) :
    List Iter → LoopOutcome × List (ScrollCmd × Option String)
  | [] => (.running, [])
  | it :: rest =>
    if it.stop then (.stopped, [])
    else
      match it.read with
      | .error e => (.readErr ("error reading events: " ++ e), [])
      | .ok evs =>
        let (attempts, emits') := handleEvents sNum sDen deadZone evs emits
        let (out, more) := processEvents sNum sDen deadZone emits' rest
        (out, attempts ++ more)

/-- The loop outcome, independent of emission results (specification-side
companion of `processEvents`). -/
def loopOutcome : List Iter → LoopOutcome
  | [] => .running
  | it :: rest =>
    if it.stop then .stopped
    else
      match it.read with
      | .error e => .readErr ("error reading events: " ++ e)
      | .ok _ => loopOutcome rest

/-- The commands the loop attempts to emit, independent of emission results
(specification-side companion of `processEvents`). -/
def loopCmds (sNum sDen deadZone : Int) : List Iter → List ScrollCmd
  | [] => []
  | it :: rest =>
    if it.stop then []
    else
      match it.read with
      | .error _ => []
      | .ok evs => batchCmds sNum sDen deadZone evs ++ loopCmds sNum sDen deadZone rest

/-! ### Cleanup (`close`, src/main.go lines 240–249) -/

/-- Observable actions of `TrackballScroller.close`. -/
inductive CloseAction where
  /-- `ioctl(fd, UI_DEV_DESTROY)` on the virtual device descriptor. -/
  | destroyVirtual : Int → CloseAction
  /-- `syscall.Close(fd)` on the virtual device descriptor. -/
  | closeVirtualFd : Int → CloseAction
  /-- `device.Release()` on the physical device grab. -/
  | releasePhysical : CloseAction
deriving DecidableEq, Repr

/-- Function `close` (src/main.go lines 240–249):

```go
if ts.virtualFd >= 0 {
    syscall.Syscall(syscall.SYS_IOCTL, uintptr(ts.virtualFd), UI_DEV_DESTROY, 0)
    syscall.Close(ts.virtualFd)
}
if ts.device != nil { ts.device.Release() }
```

Modelled as the ordered list of actions performed; `deviceNonNil` says whether
`ts.device` is non-nil.  The function is total: no input faults. -/
def closeScroller (virtualFd : Int) (deviceNonNil : Bool) : List CloseAction :=
  (if virtualFd ≥ 0 then
      [CloseAction.destroyVirtual virtualFd, CloseAction.closeVirtualFd virtualFd]
    else []) ++
  (if deviceNonNil then [CloseAction.releasePhysical] else [])

/-! ### Device classification and selection -/

/-- Does `l` start with `p`? (mirrors the prefix test underlying Go's
`strings.Contains`). -/
def startsWith : List Char → List Char → Bool
  | _, [] => true
  | [], _ :: _ => false
  | c :: cs, p :: ps => c = p && startsWith cs ps

/-- Go `strings.Contains(hay, needle)`: does `needle` occur as a contiguous
substring of `hay`? -/
def containsSub : List Char → List Char → Bool
  | [], needle => needle.isEmpty
  | c :: cs, needle => startsWith (c :: cs) needle || containsSub cs needle

/-- Keyword list `trackballKeywords` (src/main.go lines 17–22). -/
def trackballKeywords : List String :=
  ["trackball", "expert mouse", "orbit", "slimblade"]

/-- Lower-case a string character-wise. Go's `strings.ToLower` is Unicode-aware;
`Char.toLower` covers the ASCII letters, which is exact for the keyword set and
the device names considered here. -/
def lowerChars (s : String) : List Char := s.data.map Char.toLower

/-- Function `isTrackballDevice` (src/main.go lines 100–109):

```go
name := strings.ToLower(deviceName)
for _, keyword := range trackballKeywords {
    if strings.Contains(name, keyword) { return true }
}
return false
```
-/
def isTrackballDevice (deviceName : String) : Bool :=
  let name := lowerChars deviceName
  trackballKeywords.any (fun keyword => containsSub name keyword.data)

/-- The device node path for index `i`: `fmt.Sprintf("/dev/input/event%d", i)`. -/
def devicePathOf (i : Nat) : String := "/dev/input/event" ++ toString i

/-- Function `findTrackballDevices` (src/main.go lines 78–98): scan nodes `0..31` in
index order; nodes that fail to open are skipped; a node whose reported name
classifies as a trackball contributes its path.  The environment is the oracle
`names : Nat → Option String` (`none` = the node cannot be opened).  The Go
function's error result is always `nil`. -/
def findTrackballDevices (names : Nat → Option String) : List String :=
  (List.range MAX_EVENT_DEVICES).filterMap fun i =>
    match names i with
    | none => none
    | some nm => if isTrackballDevice nm then some (devicePathOf i) else none

/-- Function `selectDevice` (src/main.go lines 301–325):

```go
if devicePath != "auto" { return devicePath, nil }
trackballs, err := findTrackballDevices()
if err != nil { ... }                 // err is always nil
if len(trackballs) == 0 { return "", fmt.Errorf("no trackball devices found. ...") }
if len(trackballs) > 1 { ... prints only ... }
return trackballs[0], nil
```
-/
def selectDevice (devicePath : String) (names : Nat → Option String) :
    Except String String :=
  if devicePath ≠ "auto" then .ok devicePath
  else
    match findTrackballDevices names with
    | [] => .error "no trackball devices found. Try to manually add a device with -device"
    | p :: _ => .ok p

/-! ### Top-level control flow (`main`, src/main.go lines 340–379)

`main` runs: `selectDevice`, then `openTrackballDevice`, then
`newTrackballScroller` (which creates the virtual device), registers
`defer scroller.close()`, and runs `processEvents`.  Every failure is handled
with `log.Fatal`/`log.Fatalf`, which in Go prints and calls `os.Exit(1)`;
`os.Exit` does NOT run deferred functions, so the deferred `scroller.close()`
runs only when `main` returns normally. -/

/-- The exit code and whether the deferred `scroller.close()` ran, as a
function of the outcomes of the four fallible steps of `main`
(`selectRes` = `selectDevice`, `openOk` = `openTrackballDevice`,
`createOk` = `newTrackballScroller`, `loopErr` = the error returned by
`processEvents`, `none` meaning a clean stop-signal return). -/
def mainFlow (selectRes : Except String String) (openOk : Bool) (createOk : Bool)
    (loopErr : Option String) : Nat × Bool :=
  match selectRes with
  | .error _ => (1, false)            -- log.Fatal(err): exit, nothing acquired
  | .ok _ =>
    if !openOk then (1, false)        -- log.Fatalf: exit, nothing to clean up
    else if !createOk then (1, false) -- log.Fatalf: exit, physical grab NOT released
    else
      match loopErr with
      | some _ => (1, false)          -- log.Fatalf: os.Exit skips the deferred close()
      | none => (0, true)             -- main returns; deferred scroller.close() runs

/-! ### Helper lemmas -/

/-- Round-toward-zero of the rational product `value * (sNum / sDen)` is the
truncating integer division computed by `scaledValue` (`float64` rounding of
the product is not modelled; the product is exact). -/
theorem scaledValue_eq_rtz (value sNum sDen : Int) (hden : 0 < sDen) :
    scaledValue value sNum sDen =
      (if 0 ≤ ((value : ℚ) * ((sNum : ℚ) / (sDen : ℚ)))
        then ⌊(value : ℚ) * ((sNum : ℚ) / (sDen : ℚ))⌋
        else ⌈(value : ℚ) * ((sNum : ℚ) / (sDen : ℚ))⌉) := by
  obtain ⟨dn, rfl⟩ : ∃ n : ℕ, sDen = (n : Int) :=
    ⟨sDen.toNat, (Int.toNat_of_nonneg hden.le).symm⟩
  have hb : (0 : ℚ) < ((dn : ℕ) : ℚ) := by exact_mod_cast hden
  have hq : ((value : ℚ)) * ((sNum : ℚ) / (((dn : ℕ) : Int) : ℚ)) =
      ((value * sNum : Int) : ℚ) / ((dn : ℕ) : ℚ) := by
    push_cast
    ring
  rw [hq]
  set a : Int := value * sNum with ha
  rcases le_or_lt 0 a with hpos | hneg
  · have h0 : (0 : ℚ) ≤ ((a : Int) : ℚ) / ((dn : ℕ) : ℚ) :=
      div_nonneg (by exact_mod_cast hpos) hb.le
    rw [if_pos h0, Rat.floor_intCast_div_natCast]
    unfold scaledValue
    rw [← ha, Int.tdiv_eq_ediv hpos (by omega)]
  · have h0 : ¬(0 : ℚ) ≤ ((a : Int) : ℚ) / ((dn : ℕ) : ℚ) := by
      rw [not_le]
      apply div_neg_of_neg_of_pos _ hb
      exact_mod_cast hneg
    rw [if_neg h0]
    have hnegq : ((a : Int) : ℚ) / ((dn : ℕ) : ℚ) =
        -(((-a : Int) : ℚ) / ((dn : ℕ) : ℚ)) := by
      push_cast
      ring
    rw [hnegq, Int.ceil_neg, Rat.floor_intCast_div_natCast]
    unfold scaledValue
    rw [← ha, show a.tdiv ((dn : ℕ) : Int) = -((-a).tdiv ((dn : ℕ) : Int)) by
        rw [Int.neg_tdiv, neg_neg],
      Int.tdiv_eq_ediv (by omega) (by omega)]

/-! Unfolding lemmas for `handleEvent`, and the behaviour of the wrapping
32-bit absolute value. -/

theorem handleEvent_not_rel {typ : Nat} (h : typ ≠ EV_REL) (code : Nat) (v : Int)
    (sNum sDen d : Int) : handleEvent typ code v sNum sDen d = none := by
  simp [handleEvent, h]

theorem handleEvent_other_code {code : Nat} (hx : code ≠ REL_X) (hy : code ≠ REL_Y)
    (typ : Nat) (v : Int) (sNum sDen d : Int) : handleEvent typ code v sNum sDen d = none := by
  simp [handleEvent, hx, hy]

theorem handleEvent_x (v : Int) (sNum sDen d : Int) :
    handleEvent EV_REL REL_X v sNum sDen d =
      (if abs32 v > d ∧ scaledValue v sNum sDen ≠ 0
        then some ⟨true, scaledValue v sNum sDen⟩ else none) := by
  simp [handleEvent, REL_X, REL_Y]

theorem handleEvent_y (v : Int) (sNum sDen d : Int) :
    handleEvent EV_REL REL_Y v sNum sDen d =
      (if abs32 v > d ∧ -scaledValue v sNum sDen ≠ 0
        then some ⟨false, -scaledValue v sNum sDen⟩ else none) := by
  simp [handleEvent, REL_X, REL_Y]

/-- For `int32` values other than the minimum, the Go `abs` agrees with the
mathematical absolute value. -/
theorem abs32_eq_abs {v : Int} (hlo : -(2 ^ 31) ≤ v) (hhi : v < 2 ^ 31)
    (hmin : v ≠ -(2 ^ 31)) : abs32 v = |v| := by
  unfold abs32 wrap32
  rcases lt_or_le v 0 with hneg | hpos
  · rw [if_pos hneg, abs_of_neg hneg]
    have h1 : (0 : Int) ≤ -v + 2 ^ 31 := by omega
    have h2 : -v + 2 ^ 31 < 2 ^ 32 := by omega
    rw [Int.emod_eq_of_lt h1 h2]
    omega
  · rw [if_neg (not_lt.2 hpos), abs_of_nonneg hpos]

/-- At the minimum `int32`, the Go `abs` overflows to a negative value. -/
theorem abs32_min : abs32 (-2147483648) = -2147483648 := by decide

theorem startsWith_iff : ∀ (p l : List Char), startsWith l p = true ↔ ∃ rest, l = p ++ rest := by
  intro p
  induction p with
  | nil =>
    intro l
    simp [startsWith]
  | cons q qs ih =>
    intro l
    cases l with
    | nil => simp [startsWith]
    | cons c cs => simp [startsWith, ih, List.cons.injEq, exists_and_left]

theorem containsSub_iff : ∀ (hay needle : List Char),
    containsSub hay needle = true ↔ ∃ pre post, hay = pre ++ needle ++ post := by
  intro hay
  induction hay with
  | nil =>
    intro needle
    simp [containsSub, List.isEmpty_iff]
  | cons c cs ih =>
    intro needle
    simp only [containsSub, Bool.or_eq_true, startsWith_iff, ih]
    constructor
    · rintro (⟨rest, h⟩ | ⟨pre, post, h⟩)
      · exact ⟨[], rest, by simpa using h⟩
      · exact ⟨c :: pre, post, by simp [h]⟩
    · rintro ⟨pre, post, h⟩
      cases pre with
      | nil => exact Or.inl ⟨post, by simpa using h⟩
      | cons a as =>
        right
        simp only [List.cons_append, List.cons.injEq] at h
        exact ⟨as, post, h.2⟩

/-! ### Claim theorems -/

/-- C1 counterexample: for the raw magnitude -2147483648 on the horizontal
axis with sensitivity 1 (= 1/1) and dead zone 0, every condition of the claim
holds — the category is relative motion, the code is the X axis, the raw
magnitude's absolute value (2^31) strictly exceeds the dead zone, and the
scaled magnitude is non-zero — yet the code produces no Scroll Command (the
wrapping 32-bit absolute value is negative there). -/
theorem handleEvent_min_int32_cex :
    handleEvent EV_REL REL_X (-2147483648) 1 1 0 = none
    ∧ |(-2147483648 : Int)| > 0
    ∧ scaledValue (-2147483648) 1 1 ≠ 0 := by
  refine ⟨?_, by decide, by decide⟩
  rw [handleEvent_x, if_neg]
  rintro ⟨h1, -⟩
  rw [abs32_min] at h1
  omega

/-- C1 (amended): for every raw motion sample whose magnitude is a 32-bit
value other than -2^31, a Scroll Command is produced if and only if the event
category is relative motion (`EV_REL`), the raw magnitude's absolute value
strictly exceeds the dead zone, round-toward-zero(raw × sensitivity) is
non-zero, and the code is the X or Y axis; the single command produced carries
that scaled magnitude (sign-inverted on the vertical axis, per the program's
natural-scrolling convention).  Sensitivity is the exact rational
`sNum / sDen`; `scaledValue_eq_rtz` identifies `scaledValue` with
round-toward-zero of the rational product. -/
theorem handleEvent_characterization :
    ∀ (typ code : Nat) (v sNum sDen d : Int) (cmd : ScrollCmd),
    -(2 ^ 31) ≤ v → v < 2 ^ 31 → v ≠ -(2 ^ 31) →
    (handleEvent typ code v sNum sDen d = some cmd ↔
      (typ = EV_REL ∧ |v| > d ∧ scaledValue v sNum sDen ≠ 0 ∧
        ((code = REL_X ∧ cmd = ⟨true, scaledValue v sNum sDen⟩) ∨
         (code = REL_Y ∧ cmd = ⟨false, -scaledValue v sNum sDen⟩)))) := by
  intro typ code v sNum sDen d cmd hlo hhi hmin
  have habs : abs32 v = |v| := abs32_eq_abs hlo hhi hmin
  by_cases ht : typ = EV_REL
  · subst ht
    by_cases hx : code = REL_X
    · subst hx
      rw [handleEvent_x, habs]
      by_cases hcond : |v| > d ∧ scaledValue v sNum sDen ≠ 0
      · rw [if_pos hcond]
        simp only [Option.some.injEq]
        constructor
        · intro h
          exact ⟨by trivial, hcond.1, hcond.2, Or.inl ⟨by trivial, h.symm⟩⟩
        · rintro ⟨-, -, -, (⟨-, rfl⟩ | ⟨hcode, -⟩)⟩
          · rfl
          · exact absurd hcode (by decide)
      · rw [if_neg hcond]
        constructor
        · intro h; exact absurd h (by simp)
        · rintro ⟨-, h1, h2, -⟩; exact absurd ⟨h1, h2⟩ hcond
    · by_cases hy : code = REL_Y
      · subst hy
        rw [handleEvent_y, habs]
        by_cases hcond : |v| > d ∧ scaledValue v sNum sDen ≠ 0
        · have hcond' : |v| > d ∧ -scaledValue v sNum sDen ≠ 0 :=
            ⟨hcond.1, neg_ne_zero.2 hcond.2⟩
          rw [if_pos hcond']
          simp only [Option.some.injEq]
          constructor
          · intro h
            exact ⟨by trivial, hcond.1, hcond.2, Or.inr ⟨by trivial, h.symm⟩⟩
          · rintro ⟨-, -, -, (⟨hcode, -⟩ | ⟨-, rfl⟩)⟩
            · exact absurd hcode (by decide)
            · rfl
        · have hcond' : ¬(|v| > d ∧ -scaledValue v sNum sDen ≠ 0) := fun hc =>
            hcond ⟨hc.1, fun hz => hc.2 (by rw [hz, neg_zero])⟩
          rw [if_neg hcond']
          constructor
          · intro h; exact absurd h (by simp)
          · rintro ⟨-, h1, h2, -⟩; exact absurd ⟨h1, h2⟩ hcond
      · rw [handleEvent_other_code hx hy]
        constructor
        · intro h; exact absurd h (by simp)
        · rintro ⟨-, -, -, (⟨hc, -⟩ | ⟨hc, -⟩)⟩
          · exact absurd hc hx
          · exact absurd hc hy
  · rw [handleEvent_not_rel ht]
    constructor
    · intro h; exact absurd h (by simp)
    · rintro ⟨hc, -⟩; exact absurd hc ht

/-- Witness for the amended C1 characterization: raw vertical motion 20 with
sensitivity 3/10 and dead zone 2 yields the single command (vertical, -6). -/
theorem handleEvent_characterization_witness :
    handleEvent EV_REL REL_Y 20 3 10 2 = some ⟨false, -6⟩ :=
  (handleEvent_characterization EV_REL REL_Y 20 3 10 2 ⟨false, -6⟩
      (by decide) (by decide) (by decide)).mpr
    ⟨by trivial, by decide, by decide, Or.inr ⟨by trivial, by decide⟩⟩

/-- C2: for every raw magnitude, sensitivity and dead zone, the vertical-axis
result is exactly the horizontal-axis result with the axis flag set to
vertical and the magnitude negated: both produce a command under the same
conditions, and the vertical magnitude is the negation of the horizontal
one. -/
theorem vertical_inverts_horizontal : ∀ (v sNum sDen d : Int),
    handleEvent EV_REL REL_Y v sNum sDen d =
      (handleEvent EV_REL REL_X v sNum sDen d).map (fun c => ⟨false, -c.value⟩) := by
  intro v sNum sDen d
  rw [handleEvent_x, handleEvent_y]
  by_cases h : abs32 v > d ∧ scaledValue v sNum sDen ≠ 0
  · rw [if_pos ⟨h.1, neg_ne_zero.2 h.2⟩, if_pos h]
    rfl
  · rw [if_neg (fun hc => h ⟨hc.1, fun hz => hc.2 (by rw [hz, neg_zero])⟩), if_neg h]
    rfl

/-- The commands attempted by `handleEvents` on a batch are exactly the
batch's translated commands, whatever the emission outcomes are. -/
theorem handleEvents_fst_map (sNum sDen d : Int) :
    ∀ (evs : List InputSample) (emits : List (Option String)),
    (handleEvents sNum sDen d evs emits).1.map Prod.fst = batchCmds sNum sDen d evs := by
  intro evs
  induction evs with
  | nil => intro emits; rfl
  | cons ev rest ih =>
    intro emits
    cases h : handleEvent ev.typ ev.code ev.value sNum sDen d with
    | none => simp [handleEvents, h, batchCmds, List.filterMap_cons, ih emits]
    | some cmd =>
      rcases htk : takeOutcome emits with ⟨r, emits'⟩
      rcases hh : handleEvents sNum sDen d rest emits' with ⟨more, emits''⟩
      have ih' := ih emits'
      rw [hh] at ih'
      simp [handleEvents, h, htk, hh, batchCmds, List.filterMap_cons, ih']

/-- C3 counterexample: one iteration reads a batch of two samples (vertical
then horizontal raw motion 10, sensitivity 1, dead zone 0); the first
emission fails, yet the loop still attempts the second emission and records
no error — it does not transition to stopping, contradicting the claim that
an emission failure immediately stops the loop with the error recorded. -/
theorem processEvents_emission_error_cex :
    processEvents 1 1 0 [some "input/output error"]
        [⟨false, .ok [⟨2, 1, 10⟩, ⟨2, 0, 10⟩]⟩] =
      (.running,
        [(⟨false, -10⟩, some "input/output error"), (⟨true, 10⟩, none)]) := by
  decide

/-- C3 (amended): emission outcomes never influence the event loop: its
outcome (stopped, read error, or still running) and the sequence of commands
it attempts to emit are identical for every assignment of emission results.
An emission failure is discarded (`handleEvents` ignores `sendScrollEvent`'s
return value, src/main.go line 289): the remaining samples of the batch and
all later batches are still translated and emitted, and only a read error or
the stop indicator ends the loop. -/
theorem processEvents_ignores_emission_errors :
    ∀ (sNum sDen d : Int) (emits : List (Option String)) (iters : List Iter),
    (processEvents sNum sDen d emits iters).1 = loopOutcome iters
    ∧ (processEvents sNum sDen d emits iters).2.map Prod.fst =
        loopCmds sNum sDen d iters := by
  intro sNum sDen d emits iters
  induction iters generalizing emits with
  | nil => exact ⟨rfl, rfl⟩
  | cons it rest ih =>
    obtain ⟨stop, rd⟩ := it
    cases stop
    · cases rd with
      | error e => exact ⟨rfl, rfl⟩
      | ok evs =>
        rcases hh : handleEvents sNum sDen d evs emits with ⟨attempts, emits'⟩
        rcases hp : processEvents sNum sDen d emits' rest with ⟨out, more⟩
        have ih' := ih emits'
        rw [hp] at ih'
        have hmap := handleEvents_fst_map sNum sDen d evs emits
        rw [hh] at hmap
        constructor
        · simpa [processEvents, hh, hp, loopOutcome] using ih'.1
        · simp [processEvents, hh, hp, loopCmds, hmap, ih'.2]
    · exact ⟨rfl, rfl⟩

/-- C4 (code bug): after a fully successful startup, a read error during
running reaches `log.Fatalf`, which calls `os.Exit(1)` — the deferred
`scroller.close()` does NOT run, so neither the virtual-device destroy nor
the grab release happens, although the process does exit non-zero.  Only the
clean stop-signal path (loop returns `nil`) runs the deferred cleanup and
exits 0. -/
theorem mainFlow_fatal_skips_cleanup :
    mainFlow (.ok "/dev/input/event0") true true
        (some "error reading events: input/output error") = (1, false)
    ∧ mainFlow (.ok "/dev/input/event0") true true none = (0, true) :=
  ⟨rfl, rfl⟩

/-- C5: one emission call writes exactly two records in order — first the
relative-motion record with the axis-specific code and the signed magnitude,
then the `SYN_REPORT` record with zero value — and a failure of either write
makes the call return the wrapped error (the first-record failure writes
nothing further; the second-record failure leaves only the first record
written). -/
theorem sendScrollEvent_spec :
    ∀ (w1 w2 : Option String) (sec : Int) (isH : Bool) (v : Int),
    (sendScrollEvent none none sec isH v =
      ([⟨sec, 0, EV_REL, if isH then REL_HWHEEL else REL_WHEEL, v⟩,
        ⟨sec, 0, EV_SYN, SYN_REPORT, 0⟩], none))
    ∧ (∀ e, w1 = some e →
        sendScrollEvent w1 w2 sec isH v =
          ([], some ("failed to write event: " ++ e)))
    ∧ (∀ e, w1 = none → w2 = some e →
        sendScrollEvent w1 w2 sec isH v =
          ([⟨sec, 0, EV_REL, if isH then REL_HWHEEL else REL_WHEEL, v⟩],
            some ("failed to write event: " ++ e))) := by
  intro w1 w2 sec isH v
  refine ⟨rfl, ?_, ?_⟩
  · rintro e rfl
    rfl
  · rintro e rfl rfl
    rfl

/-- Witness for C5 at concrete inputs: a successful call writes the motion
record then the sync record; a failure of the first or second write is
propagated. -/
theorem sendScrollEvent_spec_witness :
    sendScrollEvent none none 7 true 3 =
      ([⟨7, 0, 2, 6, 3⟩, ⟨7, 0, 0, 0, 0⟩], none)
    ∧ sendScrollEvent (some "broken pipe") none 7 true 3 =
        ([], some "failed to write event: broken pipe")
    ∧ sendScrollEvent none (some "broken pipe") 7 false 3 =
        ([⟨7, 0, 2, 8, 3⟩], some "failed to write event: broken pipe") := by
  refine ⟨?_, ?_, ?_⟩
  · exact (sendScrollEvent_spec none none 7 true 3).1
  · exact (sendScrollEvent_spec (some "broken pipe") none 7 true 3).2.1 "broken pipe" rfl
  · exact (sendScrollEvent_spec none (some "broken pipe") 7 false 3).2.2 "broken pipe" rfl rfl

/-- C6: if the stop indicator is set at some top-of-loop check (after any
number of completed read/translate/emit cycles, none of which stopped or
failed), the loop returns `stopped` (the `nil` return, proceeding to cleanup)
and the emission attempts are exactly those of the completed cycles before
the check: nothing is read or emitted from that iteration on. -/
theorem processEvents_stops_at_indicator :
    ∀ (sNum sDen d : Int) (emits : List (Option String)) (pre : List Iter)
      (rd : Except String (List InputSample)) (rest : List Iter),
    (∀ it ∈ pre, it.stop = false ∧ ∃ evs, it.read = Except.ok evs) →
    processEvents sNum sDen d emits (pre ++ ⟨true, rd⟩ :: rest) =
      (LoopOutcome.stopped, (processEvents sNum sDen d emits pre).2) := by
  intro sNum sDen d emits pre rd rest hpre
  induction pre generalizing emits with
  | nil => rfl
  | cons it pre' ih =>
    obtain ⟨hstop, evs, hread⟩ := hpre it (List.mem_cons_self it pre')
    obtain ⟨stop, rd'⟩ := it
    cases hstop
    cases hread
    rcases hh : handleEvents sNum sDen d evs emits with ⟨attempts, emits'⟩
    have ih' := ih emits' (fun it hit => hpre it (List.mem_cons_of_mem _ hit))
    simp [processEvents, hh, ih']

/-- Witness for C6: one clean cycle (vertical raw 5, sensitivity 1, dead
zone 0), then the stop indicator is found set; later iterations are never
processed and the loop result is `stopped` with only the first cycle's
emission. -/
theorem processEvents_stops_at_indicator_witness :
    processEvents 1 1 0 []
        ([⟨false, .ok [⟨2, 1, 5⟩]⟩] ++ ⟨true, .ok []⟩ :: [⟨false, .ok [⟨2, 0, 7⟩]⟩]) =
      (LoopOutcome.stopped, [(⟨false, -5⟩, none)]) := by
  rw [processEvents_stops_at_indicator 1 1 0 [] [⟨false, .ok [⟨2, 1, 5⟩]⟩]
      (.ok []) [⟨false, .ok [⟨2, 0, 7⟩]⟩] ?_]
  · decide
  · intro it hit
    simp only [List.mem_singleton] at hit
    subst hit
    exact ⟨rfl, [⟨2, 1, 5⟩], rfl⟩

/-- C7: `close` on a handle whose virtual-device descriptor is negative
performs no destroy and no descriptor close (and, the model being a total
function, does not fault); if additionally the physical device is nil,
`close` performs no action at all. -/
theorem closeScroller_safe :
    ∀ (virtualFd : Int) (deviceNonNil : Bool),
    (virtualFd < 0 → closeScroller virtualFd deviceNonNil =
      if deviceNonNil then [CloseAction.releasePhysical] else [])
    ∧ (virtualFd < 0 → deviceNonNil = false →
        closeScroller virtualFd deviceNonNil = []) := by
  intro virtualFd deviceNonNil
  constructor
  · intro h
    simp [closeScroller, not_le.2 h]
  · rintro h rfl
    simp [closeScroller, not_le.2 h]

/-- Witness for C7: a handle that never activated (descriptor -1) releases
only the physical grab when one is held, and does nothing when the physical
device is nil too. -/
theorem closeScroller_safe_witness :
    closeScroller (-1) true = [CloseAction.releasePhysical]
    ∧ closeScroller (-1) false = [] := by
  constructor
  · exact ((closeScroller_safe (-1) true).1 (by decide)).trans (by decide)
  · exact (closeScroller_safe (-1) false).2 (by decide) rfl

/-- C8: a device name is classified as a trackball exactly when its
lower-cased form contains one of the keywords "trackball", "expert mouse",
"orbit", "slimblade" as a contiguous substring; in particular
"Kensington Expert Mouse" matches and "Generic USB Mouse" does not. -/
theorem isTrackballDevice_spec :
    (∀ name : String, isTrackballDevice name = true ↔
      ∃ kw ∈ trackballKeywords, ∃ pre post, lowerChars name = pre ++ kw.data ++ post)
    ∧ isTrackballDevice "Kensington Expert Mouse" = true
    ∧ isTrackballDevice "Generic USB Mouse" = false := by
  refine ⟨?_, by decide, by decide⟩
  intro name
  simp [isTrackballDevice, List.any_eq_true, containsSub_iff]

/-- C9: an explicit device path (anything but the literal "auto") bypasses
discovery and is returned unchanged; with "auto", an empty discovery result
is the fatal "no trackball devices found" error, and a non-empty result (one
or many matches) selects the first path in node-index scan order. -/
theorem selectDevice_spec :
    ∀ (devicePath : String) (names : Nat → Option String),
    (devicePath ≠ "auto" → selectDevice devicePath names = .ok devicePath)
    ∧ (devicePath = "auto" → findTrackballDevices names = [] →
        selectDevice devicePath names =
          .error "no trackball devices found. Try to manually add a device with -device")
    ∧ (∀ p rest, devicePath = "auto" → findTrackballDevices names = p :: rest →
        selectDevice devicePath names = .ok p) := by
  intro devicePath names
  refine ⟨?_, ?_, ?_⟩
  · intro h
    simp [selectDevice, h]
  · rintro rfl h
    simp [selectDevice, h]
  · rintro p rest rfl h
    simp [selectDevice, h]

/-- Witness for C9: an explicit path is returned unchanged; an all-empty scan
errors; a scan whose only match is node 3 selects /dev/input/event3. -/
theorem selectDevice_spec_witness :
    selectDevice "/dev/input/event5" (fun _ => none) = .ok "/dev/input/event5"
    ∧ selectDevice "auto" (fun _ => none) =
        .error "no trackball devices found. Try to manually add a device with -device"
    ∧ selectDevice "auto"
        (fun i => if i = 3 then some "Kensington SlimBlade Pro" else none) =
        .ok "/dev/input/event3" := by
  refine ⟨?_, ?_, ?_⟩
  · exact (selectDevice_spec "/dev/input/event5" (fun _ => none)).1 (by decide)
  · exact (selectDevice_spec "auto" (fun _ => none)).2.1 rfl (by decide)
  · exact (selectDevice_spec "auto"
        (fun i => if i = 3 then some "Kensington SlimBlade Pro" else none)).2.2
      "/dev/input/event3" [] rfl (by decide)

/-- C10: at the minimum 32-bit raw magnitude -2147483648, the program's
absolute-value helper overflows to -2147483648 itself (a negative number), so
for every non-negative dead zone, every sensitivity, and every event
category/code, the dead-zone comparison fails and no Scroll Command is
produced for that sample. -/
theorem handleEvent_min_int32 :
    abs32 (-2147483648) = -2147483648
    ∧ ∀ (typ code : Nat) (sNum sDen d : Int), 0 ≤ d →
        handleEvent typ code (-2147483648) sNum sDen d = none := by
  constructor
  · decide
  · intro typ code sNum sDen d hd
    by_cases ht : typ = EV_REL
    · subst ht
      by_cases hx : code = REL_X
      · subst hx
        rw [handleEvent_x, if_neg]
        rintro ⟨h1, -⟩
        rw [abs32_min] at h1
        omega
      · by_cases hy : code = REL_Y
        · subst hy
          rw [handleEvent_y, if_neg]
          rintro ⟨h1, -⟩
          rw [abs32_min] at h1
          omega
        · exact handleEvent_other_code hx hy _ _ _ _ _
    · exact handleEvent_not_rel ht _ _ _ _ _

/-- Witness for C10: with the default dead zone 2 and sensitivity 3/10, a
vertical sample of raw magnitude -2147483648 produces nothing. -/
theorem handleEvent_min_int32_witness :
    handleEvent 2 1 (-2147483648) 3 10 2 = none :=
  handleEvent_min_int32.2 2 1 3 10 2 (by decide)

end TrackballScroll
